import Mathlib

/-!
Shallow embedding of the visual-grounding core of the Desktop-Automation
repository:
  * `src/src/ocr_grounder.py` — `TextLocation` (with `center` / `icon_center`),
    `GroundingResult`, `GroundingError`, `OCRGrounder.find_all_text`,
    `OCRGrounder.ground`;
  * `src/src/notepad.py` — the retry loop of `launch_notepad_from_desktop`.

Modelling conventions: Python `int` is `Int`; Python `float` values that the
code only passes around or compares (confidences, delays, polygon
coordinates) are `ℚ`; Python `//` (floor division) is `Int.fdiv`; Python
`int(...)` truncation toward zero is `pyInt`; Python `str.lower` is
`String.toLower`; Python's substring operator `in` is `isSubOf` on the
character lists; exceptions are `Except` values.  The OCR engine (EasyOCR)
is external: its raw output is the `RawDetection` input list, a screenshot
capture failure is `AttemptError.capture`, in accordance with the fact that
`launch_notepad_from_desktop` distinguishes exception classes only through
its `except GroundingError` clause.
-/

namespace DesktopAutomation

/-- `TextLocation` from `ocr_grounder.py`: a detected text with its
bounding box (`x` = left, `y` = top). -/
structure TextLocation where
  text : String
  x : Int
  y : Int
  width : Int
  height : Int
  confidence : ℚ
deriving DecidableEq

/-- `TextLocation.center`: `(x + width // 2, y + height // 2)`
(Python `//` is floor division, `Int.fdiv`). -/
def TextLocation.center (loc : TextLocation) : Int × Int :=
  (loc.x + loc.width.fdiv 2, loc.y + loc.height.fdiv 2)

/-- `TextLocation.icon_center`: `(cx, cy - 45)` where `(cx, cy) = center`. -/
def TextLocation.icon_center (loc : TextLocation) : Int × Int :=
  (loc.center.1, loc.center.2 - 45)

/-- `GroundingResult` from `ocr_grounder.py`. -/
structure GroundingResult where
  x : Int
  y : Int
  confidence : ℚ
  text_found : String
deriving DecidableEq

/-- `GroundingError` from `ocr_grounder.py`: message plus the
`available_labels` diagnostic list (defaulted to `[]`). -/
structure GroundingError where
  message : String
  available_labels : List String
deriving DecidableEq

/-- One raw item of `easyocr.Reader.readtext` output: a bounding polygon
(list of points), the recognized text and a confidence. -/
structure RawDetection where
  bbox : List (ℚ × ℚ)
  text : String
  conf : ℚ
deriving DecidableEq

/-- Python `int(...)` on a float: truncation toward zero. -/
def pyInt (q : ℚ) : Int :=
  if 0 ≤ q then ⌊q⌋ else ⌈q⌉

/-- Python `min(f(p) for p in bbox)` (the engine never reports an empty
polygon; the `[]` case, a `ValueError` in Python, is defaulted to `0`). -/
def polyMin (f : ℚ × ℚ → ℚ) : List (ℚ × ℚ) → ℚ
  | [] => 0
  | p :: ps => ps.foldl (fun acc q => min acc (f q)) (f p)

/-- Python `max(f(p) for p in bbox)` (same convention as `polyMin`). -/
def polyMax (f : ℚ × ℚ → ℚ) : List (ℚ × ℚ) → ℚ
  | [] => 0
  | p :: ps => ps.foldl (fun acc q => max acc (f q)) (f p)

/-- The loop body of `OCRGrounder.find_all_text`: normalize one raw
detection to an axis-aligned `TextLocation` via min/max of the polygon's
coordinates on each axis. -/
def mkLocation (raw : RawDetection) : TextLocation :=
  let x1 := pyInt (polyMin Prod.fst raw.bbox)
  let y1 := pyInt (polyMin Prod.snd raw.bbox)
  let x2 := pyInt (polyMax Prod.fst raw.bbox)
  let y2 := pyInt (polyMax Prod.snd raw.bbox)
  ⟨raw.text, x1, y1, x2 - x1, y2 - y1, raw.conf⟩

/-- `OCRGrounder.find_all_text`, as a function of the engine's raw
output list. -/
def find_all_text (results : List RawDetection) : List TextLocation :=
  results.map mkLocation

/-- Python list "needle is a prefix of hay" on characters, used to define
the substring operator. -/
def isPrefOf : List Char → List Char → Bool
  | [], _ => true
  | _ :: _, [] => false
  | a :: as, b :: bs => a == b && isPrefOf as bs

/-- Python's substring operator `needle in hay` on strings, over the
character lists: some contiguous run of `hay` equals `needle`. -/
def isSubOf (needle : List Char) : List Char → Bool
  | [] => needle.isEmpty
  | b :: bs => isPrefOf needle (b :: bs) || isSubOf needle bs

/-- Python `str.lower()`: lower-case every character of the string. -/
def pyLower (s : String) : String :=
  ⟨s.data.map Char.toLower⟩

/-- The exact-match test of `OCRGrounder.ground`:
`loc.text.lower() == target_lower`. -/
def exactPred (target_lower : String) (loc : TextLocation) : Bool :=
  pyLower loc.text == target_lower

/-- The partial-match test of `OCRGrounder.ground`:
`target_lower in loc.text.lower() or loc.text.lower() in target_lower`. -/
def subPred (target_lower : String) (loc : TextLocation) : Bool :=
  isSubOf target_lower.toList (pyLower loc.text).toList ||
    isSubOf (pyLower loc.text).toList target_lower.toList

/-- The matching phase of `OCRGrounder.ground`: the exact-match loop
(first hit wins), then the partial-match loop. -/
def matchFragment (all_text : List TextLocation) (target : String) :
    Option TextLocation :=
  let target_lower := pyLower target
  match all_text.find? (exactPred target_lower) with
  | some loc => some loc
  | none => all_text.find? (subPred target_lower)

/-- `OCRGrounder.ground` after `find_all_text` has produced `all_text`:
empty-scene check, matching, anchor resolution, result packaging. -/
def groundFragments (all_text : List TextLocation) (target : String) :
    Except GroundingError GroundingResult :=
  if all_text.isEmpty then
    Except.error ⟨"No text found in screenshot", []⟩
  else
    let labels := all_text.map (fun t => t.text)
    match matchFragment all_text target with
    | none =>
        Except.error ⟨"'" ++ target ++ "' not found in detected text", labels⟩
    | some m =>
        Except.ok ⟨m.icon_center.1, m.icon_center.2, m.confidence, m.text⟩

/-- `OCRGrounder.ground` as a function of the engine's raw output. -/
def ground (results : List RawDetection) (target : String) :
    Except GroundingError GroundingResult :=
  groundFragments (find_all_text results) target

/-- The failure of one attempt of `launch_notepad_from_desktop`: either a
capture-specific exception raised by `screenshot.capture_desktop` (not a
`GroundingError`) or a `GroundingError` from `ground_icon`. -/
inductive AttemptError where
  | capture (message : String)
  | grounding (e : GroundingError)
deriving DecidableEq

/-- Observable trace of one run of the retry loop: its outcome, the list of
backoff sleep durations in order, and how many attempts were started. -/
structure LaunchTrace (α : Type) where
  result : Except AttemptError α
  sleeps : List ℚ
  attemptsMade : Nat

/-- The fallback error of `raise last_error or GroundingError(...)` in
`launch_notepad_from_desktop`. -/
def fallbackError : GroundingError :=
  ⟨"Failed to launch Notepad after all retries", []⟩

/-- The retry loop of `launch_notepad_from_desktop`, recursing on the number
of loop iterations left (`rem`); `attempt` is the zero-based loop index of
`for attempt in range(max_retries)`.  A `GroundingError` is caught and, when
`attempt < max_retries - 1`, followed by a sleep of
`retry_delay * 2 ** attempt`; a capture error is not caught by the
`except GroundingError` clause and propagates at once; exhaustion raises
`last_error or fallbackError`. -/
def loopGo {α : Type} (attemptFn : Nat → Except AttemptError α) (retry_delay : ℚ)
    (max_retries : Nat) (attempt : Nat) :
    Nat → Option GroundingError → LaunchTrace α
  | 0, last_error =>
      ⟨Except.error (AttemptError.grounding (last_error.getD fallbackError)), [], 0⟩
  | rem + 1, _ =>
      match attemptFn attempt with
      | Except.ok r => ⟨Except.ok r, [], 1⟩
      | Except.error (AttemptError.capture m) =>
          ⟨Except.error (AttemptError.capture m), [], 1⟩
      | Except.error (AttemptError.grounding e) =>
          let rest := loopGo attemptFn retry_delay max_retries (attempt + 1) rem (some e)
          if attempt < max_retries - 1 then
            ⟨rest.result, retry_delay * 2 ^ attempt :: rest.sleeps, rest.attemptsMade + 1⟩
          else
            ⟨rest.result, rest.sleeps, rest.attemptsMade + 1⟩

/-- `launch_notepad_from_desktop`'s acquisition loop, with the per-attempt
capture+ground outcome abstracted as `attemptFn` (a fresh capture per
attempt index) and `config.max_retries` / `config.retry_delay` as
parameters. -/
def launchLoop {α : Type} (attemptFn : Nat → Except AttemptError α)
    (max_retries : Nat) (retry_delay : ℚ) : LaunchTrace α :=
  loopGo attemptFn retry_delay max_retries 0 max_retries none

end DesktopAutomation

namespace DesktopAutomation

/-- `isPrefOf` decides "the first list starts the second". -/
theorem isPrefOf_iff (n : List Char) : ∀ h : List Char,
    isPrefOf n h = true ↔ ∃ t, h = n ++ t := by
  induction n with
  | nil => intro h; simp [isPrefOf]
  | cons a as ih =>
    intro h
    cases h with
    | nil =>
      simp only [isPrefOf, List.cons_append]
      constructor
      · intro hfalse; cases hfalse
      · rintro ⟨t, ht⟩; cases ht
    | cons b bs =>
      simp only [isPrefOf, Bool.and_eq_true, beq_iff_eq, List.cons_append, ih]
      constructor
      · rintro ⟨rfl, t, rfl⟩; exact ⟨t, rfl⟩
      · rintro ⟨t, ht⟩
        injection ht with h1 h2
        exact ⟨h1.symm, t, h2⟩

/-- `isSubOf` decides Python's substring operator `in`: some contiguous run
of the second list equals the first. -/
theorem isSubOf_iff (n : List Char) : ∀ h : List Char,
    isSubOf n h = true ↔ ∃ p q, h = p ++ n ++ q := by
  intro h
  induction h with
  | nil =>
    simp only [isSubOf, List.isEmpty_iff]
    constructor
    · rintro rfl; exact ⟨[], [], rfl⟩
    · rintro ⟨p, q, hpq⟩
      rcases List.append_eq_nil.mp hpq.symm with ⟨h1, h2⟩
      rcases List.append_eq_nil.mp h1 with ⟨_, h3⟩
      exact h3
  | cons b bs ih =>
    simp only [isSubOf, Bool.or_eq_true, isPrefOf_iff, ih]
    constructor
    · rintro (⟨t, ht⟩ | ⟨p, q, hpq⟩)
      · exact ⟨[], t, by simp [ht]⟩
      · exact ⟨b :: p, q, by simp [hpq]⟩
    · rintro ⟨p, q, hpq⟩
      cases p with
      | nil => exact Or.inl ⟨q, by simpa using hpq⟩
      | cons x xs =>
        injection hpq with h1 h2
        exact Or.inr ⟨xs, q, by simpa using h2⟩

/-- C1: when some fragment's lower-cased text equals the lower-cased
target, the matching phase of `ground` returns an exact-matching fragment:
exact matching takes precedence over substring matching. -/
theorem c1_exact_match_precedence (l : List TextLocation) (target : String)
    (h : ∃ loc ∈ l, pyLower loc.text = pyLower target) :
    ∃ m, matchFragment l target = some m ∧ pyLower m.text = pyLower target := by
  have hsome : (l.find? (exactPred (pyLower target))).isSome := by
    rw [List.find?_isSome]
    obtain ⟨loc, hmem, heq⟩ := h
    exact ⟨loc, hmem, by simp [exactPred, heq]⟩
  obtain ⟨m, hm⟩ := Option.isSome_iff_exists.mp hsome
  refine ⟨m, ?_, ?_⟩
  · simp only [matchFragment]
    rw [hm]
  · have := List.find?_some hm
    simpa [exactPred] using this

/-- C1 witness: with both the exact match "notepad" and the substring match
"Notepad Setup" present for target "Notepad", the exact match is returned. -/
theorem c1_exact_match_precedence_witness :
    ∃ m, matchFragment
        [⟨"Notepad Setup", 0, 0, 10, 10, 1⟩, ⟨"notepad", 5, 5, 10, 10, 1⟩]
        "Notepad" = some m ∧ pyLower m.text = pyLower "Notepad" :=
  c1_exact_match_precedence
    [⟨"Notepad Setup", 0, 0, 10, 10, 1⟩, ⟨"notepad", 5, 5, 10, 10, 1⟩]
    "Notepad" ⟨⟨"notepad", 5, 5, 10, 10, 1⟩, by decide, by decide⟩

/-- C2: with no exact match present, the matcher returns exactly the first
fragment (in detector output order) related to the target by the
bidirectional substring test ("contains or is contained"); matching "Note"
against fragment text "Notepad" succeeds, and so does "Notepad" against
"Note". -/
theorem c2_substring_fallback (l : List TextLocation) (target : String)
    (m : TextLocation)
    (hnoexact : ∀ loc ∈ l, exactPred (pyLower target) loc = false) :
    (matchFragment l target = some m ↔
      subPred (pyLower target) m = true ∧
        ∃ l₁ l₂, l = l₁ ++ m :: l₂ ∧
          ∀ x ∈ l₁, subPred (pyLower target) x = false) ∧
    (∀ loc : TextLocation,
      subPred (pyLower target) loc = true ↔
        ((∃ p q, (pyLower loc.text).toList = p ++ (pyLower target).toList ++ q) ∨
         (∃ p q, (pyLower target).toList = p ++ (pyLower loc.text).toList ++ q))) ∧
    matchFragment [⟨"Notepad", 0, 0, 0, 0, 1⟩] "Note" =
      some ⟨"Notepad", 0, 0, 0, 0, 1⟩ ∧
    matchFragment [⟨"Note", 0, 0, 0, 0, 1⟩] "Notepad" =
      some ⟨"Note", 0, 0, 0, 0, 1⟩ := by
  have hnone : l.find? (exactPred (pyLower target)) = none :=
    List.find?_eq_none.mpr fun x hx => by simp [hnoexact x hx]
  refine ⟨?_, ?_, by decide, by decide⟩
  · simp only [matchFragment]
    rw [hnone]
    rw [List.find?_eq_some]
    simp [Bool.not_eq_true']
  · intro loc
    simp [subPred, isSubOf_iff]

/-- C2 witness: for target "Note" and the single fragment "Notepad" (no
exact match), the matcher returns that fragment. -/
theorem c2_substring_fallback_witness :
    matchFragment [⟨"Notepad", 0, 0, 0, 0, 1⟩] "Note" =
      some ⟨"Notepad", 0, 0, 0, 0, 1⟩ :=
  (c2_substring_fallback [⟨"Notepad", 0, 0, 0, 0, 1⟩] "Note"
    ⟨"Notepad", 0, 0, 0, 0, 1⟩ (by decide)).2.2.1

/-- C3: on a non-empty fragment list where no fragment passes the exact or
substring test, `ground` fails with a `GroundingError` whose
`available_labels` is exactly the fragment texts in detector order. -/
theorem c3_no_match_labels (l : List TextLocation) (target : String)
    (hne : l ≠ [])
    (hno : ∀ loc ∈ l,
      exactPred (pyLower target) loc = false ∧
        subPred (pyLower target) loc = false) :
    groundFragments l target =
      Except.error ⟨"'" ++ target ++ "' not found in detected text",
        l.map (fun t => t.text)⟩ := by
  have hex : l.find? (exactPred (pyLower target)) = none :=
    List.find?_eq_none.mpr fun x hx => by simp [(hno x hx).1]
  have hsub : l.find? (subPred (pyLower target)) = none :=
    List.find?_eq_none.mpr fun x hx => by simp [(hno x hx).2]
  have hmatch : matchFragment l target = none := by
    simp only [matchFragment]
    rw [hex, hsub]
  have hempty : l.isEmpty = false := by
    cases l with
    | nil => exact absurd rfl hne
    | cons a t => rfl
  simp [groundFragments, hempty, hmatch]

/-- C3 witness: target "Notepad" against the single unrelated fragment
"Recycle Bin" fails with that fragment's text as the only label. -/
theorem c3_no_match_labels_witness :
    groundFragments [⟨"Recycle Bin", 0, 0, 10, 10, 1⟩] "Notepad" =
      Except.error ⟨"'" ++ "Notepad" ++ "' not found in detected text",
        [⟨"Recycle Bin", 0, 0, 10, 10, 1⟩].map
          (fun t : TextLocation => t.text)⟩ :=
  c3_no_match_labels [⟨"Recycle Bin", 0, 0, 10, 10, 1⟩] "Notepad"
    (by decide) (by decide)

/-- C7: an image whose detection yields zero fragments makes `ground` fail
at once with the distinct no-text error carrying an empty label list,
whatever the target. -/
theorem c7_empty_scene (results : List RawDetection) (target : String)
    (h : find_all_text results = []) :
    ground results target = Except.error ⟨"No text found in screenshot", []⟩ := by
  simp [ground, h, groundFragments]

/-- C7 witness: empty raw detection output, target "Notepad". -/
theorem c7_empty_scene_witness :
    ground [] "Notepad" = Except.error ⟨"No text found in screenshot", []⟩ :=
  c7_empty_scene [] "Notepad" rfl

/-- C10 counterexample: with fragments `["a", ""]` and target `""`, the
second fragment is an exact match (empty text) and wins, so `ground`
returns its anchor, not the first fragment's anchor as claimed. -/
theorem c10_counterexample :
    groundFragments [⟨"a", 0, 0, 0, 0, 1⟩, ⟨"", 10, 100, 0, 0, 1⟩] "" =
      Except.ok ⟨10, 55, 1, ""⟩ ∧
    ((10 : Int), (55 : Int)) ≠ TextLocation.icon_center ⟨"a", 0, 0, 0, 0, 1⟩ :=
  ⟨rfl, by decide⟩

/-- C10 amended: `ground` with the empty target on a non-empty fragment
list always succeeds; when no fragment's lower-cased text is empty (so no
exact match occurs) it returns the anchor data of the first fragment in
detector output order. -/
theorem c10_empty_target (a : TextLocation) (rest : List TextLocation) :
    (∃ r, groundFragments (a :: rest) "" = Except.ok r) ∧
    ((∀ loc ∈ a :: rest, pyLower loc.text ≠ "") →
      groundFragments (a :: rest) "" =
        Except.ok ⟨a.icon_center.1, a.icon_center.2, a.confidence, a.text⟩) := by
  have h0 : pyLower "" = "" := rfl
  have hsubtrue : ∀ loc : TextLocation, subPred (pyLower "") loc = true := by
    intro loc
    rw [h0]
    have h1 : ("" : String).toList = [] := rfl
    simp only [subPred, h1, Bool.or_eq_true]
    left
    cases (pyLower loc.text).toList with
    | nil => rfl
    | cons c cs => simp [isSubOf, isPrefOf]
  constructor
  · simp only [groundFragments, List.isEmpty_cons, matchFragment]
    cases hfind : (a :: rest).find? (exactPred (pyLower "")) with
    | some m => exact ⟨_, rfl⟩
    | none =>
      rw [List.find?_cons_of_pos _ (hsubtrue a)]
      exact ⟨_, rfl⟩
  · intro hne
    have hex : (a :: rest).find? (exactPred (pyLower "")) = none := by
      apply List.find?_eq_none.mpr
      intro x hx
      simp only [exactPred, beq_iff_eq, h0]
      exact hne x hx
    simp only [groundFragments, List.isEmpty_cons, matchFragment]
    rw [hex, List.find?_cons_of_pos _ (hsubtrue a)]
    rfl

/-- C10 amended witness: single fragment "a", empty target. -/
theorem c10_empty_target_witness :
    groundFragments [⟨"a", 0, 0, 0, 0, 1⟩] "" =
      Except.ok ⟨(TextLocation.icon_center ⟨"a", 0, 0, 0, 0, 1⟩).1,
        (TextLocation.icon_center ⟨"a", 0, 0, 0, 0, 1⟩).2, 1, "a"⟩ :=
  (c10_empty_target ⟨"a", 0, 0, 0, 0, 1⟩ []).2 (by
    intro loc hloc
    rw [List.mem_singleton.mp hloc]
    decide)

/-- C4: the anchor resolver returns `x = left + width/2` (integer division)
and `y = (top + height/2) - 45`; in particular `(125, 165)` for
`left=100, top=200, width=50, height=20`; it is total (a Lean function),
so it always returns a coordinate. -/
theorem c4_icon_anchor :
    (∀ loc : TextLocation,
        loc.icon_center = (loc.x + loc.width.fdiv 2, (loc.y + loc.height.fdiv 2) - 45)) ∧
    (∀ (t : String) (c : ℚ),
        TextLocation.icon_center ⟨t, 100, 200, 50, 20, c⟩ = (125, 165)) :=
  ⟨fun _ => rfl, fun _ _ => rfl⟩

/-- C5: with `max_retries = 3` and every attempt failing with a
`GroundingError`, the loop performs exactly 3 attempts, sleeps exactly
twice, and raises the 3rd attempt's error unchanged. -/
theorem c5_exhaustion (e : Nat → GroundingError) (d : ℚ) :
    launchLoop
        (fun n => (Except.error (AttemptError.grounding (e n)) :
          Except AttemptError GroundingResult)) 3 d =
      ⟨Except.error (AttemptError.grounding (e 2)), [d * 2 ^ 0, d * 2 ^ 1], 3⟩ :=
  rfl

/-- The loop, started at index `i` with `mr - i` iterations left, whose
attempts fail with `GroundingError`s up to index `i + m` and succeed there,
returns that success after the backoff sleeps `d * 2 ^ j` for
`j = i, …, i + m - 1`. -/
theorem loopGo_first_success {α : Type} (fn : Nat → Except AttemptError α) (d : ℚ)
    (mr : Nat) (r : α) :
    ∀ (m i : Nat) (le : Option GroundingError), i + m < mr →
      (∀ j, i ≤ j → j < i + m → ∃ e, fn j = Except.error (AttemptError.grounding e)) →
      fn (i + m) = Except.ok r →
      loopGo fn d mr i (mr - i) le =
        ⟨Except.ok r, (List.range' i m).map (fun j => d * 2 ^ j), m + 1⟩ := by
  intro m
  induction m with
  | zero =>
    intro i le hlt _ hok
    obtain ⟨k, hk⟩ : ∃ k, mr - i = k + 1 := ⟨mr - i - 1, by omega⟩
    rw [Nat.add_zero] at hok
    rw [hk]
    simp only [loopGo, hok]
    rfl
  | succ m ih =>
    intro i le hlt hfail hok
    obtain ⟨e, he⟩ := hfail i (Nat.le_refl i) (by omega)
    obtain ⟨k, hk⟩ : ∃ k, mr - i = k + 1 := ⟨mr - i - 1, by omega⟩
    have hk' : mr - (i + 1) = k := by omega
    have hrest := ih (i + 1) (some e) (by omega)
      (fun j hj1 hj2 => hfail j (by omega) (by omega))
      (by rw [show i + 1 + m = i + (m + 1) by omega]; exact hok)
    rw [hk' ] at hrest
    rw [hk]
    simp only [loopGo, he]
    rw [hrest]
    have hcond : i < mr - 1 := by omega
    rw [if_pos hcond]
    simp [List.range'_succ]

/-- C6: the sleep after the failed attempt of zero-based index `i` lasts
`retry_delay * 2 ^ i`, and a run that first succeeds at attempt index `k`
performs exactly the `k` backoff sleeps
`retry_delay * 2 ^ 0, …, retry_delay * 2 ^ (k-1)` in that order. -/
theorem c6_backoff_schedule {α : Type} (fn : Nat → Except AttemptError α) (d : ℚ)
    (mr k : Nat) (r : α) (hk : k < mr)
    (hfail : ∀ j, j < k → ∃ e, fn j = Except.error (AttemptError.grounding e))
    (hok : fn k = Except.ok r) :
    launchLoop fn mr d =
      ⟨Except.ok r, (List.range k).map (fun i => d * 2 ^ i), k + 1⟩ := by
  have h := loopGo_first_success fn d mr r k 0 none (by omega)
    (fun j hj1 hj2 => hfail j (by omega)) (by simpa using hok)
  rw [List.range_eq_range']
  simpa [launchLoop] using h

/-- C6 witness: failure at attempt 0, success at attempt 1, with
`max_retries = 3` and `retry_delay = 1`: exactly one sleep of `1 * 2 ^ 0`. -/
theorem c6_backoff_schedule_witness :
    launchLoop
        (fun n => if n = 0
          then (Except.error (AttemptError.grounding
            ⟨"'Notepad' not found in detected text", ["Recycle Bin"]⟩) :
              Except AttemptError GroundingResult)
          else Except.ok ⟨125, 165, 1, "Notepad"⟩) 3 1 =
      ⟨Except.ok ⟨125, 165, 1, "Notepad"⟩,
        (List.range 1).map (fun i => (1 : ℚ) * 2 ^ i), 1 + 1⟩ :=
  c6_backoff_schedule _ 1 3 1 ⟨125, 165, 1, "Notepad"⟩ (by omega)
    (fun j hj => ⟨⟨"'Notepad' not found in detected text", ["Recycle Bin"]⟩, by
      have hj0 : j = 0 := by omega
      rw [hj0]
      rfl⟩)
    rfl

/-- A loop whose every attempt fails with a `GroundingError` starts as many
attempts as it has iterations left. -/
theorem loopGo_ground_fail_count {α : Type} (fn : Nat → Except AttemptError α)
    (d : ℚ) (mr : Nat)
    (hfn : ∀ n, ∃ e, fn n = Except.error (AttemptError.grounding e)) :
    ∀ (rem i : Nat) (le : Option GroundingError),
      (loopGo fn d mr i rem le).attemptsMade = rem := by
  intro rem
  induction rem with
  | zero => intro i le; rfl
  | succ rem ih =>
    intro i le
    obtain ⟨e, he⟩ := hfn i
    simp only [loopGo, he]
    by_cases hc : i < mr - 1
    · rw [if_pos hc]; simp [ih]
    · rw [if_neg hc]; simp [ih]

/-- C8 counterexample: with every attempt failing with a capture-specific
error and `max_retries = 3`, the loop is NOT retried: it starts one attempt,
performs no backoff sleep, and propagates the capture error as is — the
`except GroundingError` clause does not catch it. -/
theorem c8_counterexample :
    launchLoop
        (fun _ => (Except.error (AttemptError.capture "screen capture failed") :
          Except AttemptError GroundingResult)) 3 1 =
      ⟨Except.error (AttemptError.capture "screen capture failed"), [], 1⟩ :=
  rfl

/-- C8 amended: a `GroundingError` cause counts as that attempt failing and
is retried with backoff while attempts remain, but a capture-specific error
is not caught by the loop: it propagates immediately, ending the run after
that attempt with no further retries and no backoff sleep. -/
theorem c8_capture_not_retried {α : Type} (fn gn : Nat → Except AttemptError α)
    (mr : Nat) (d : ℚ) (msg : String) (hmr : 0 < mr)
    (hc : fn 0 = Except.error (AttemptError.capture msg))
    (hg : ∀ n, ∃ e, gn n = Except.error (AttemptError.grounding e)) :
    launchLoop fn mr d = ⟨Except.error (AttemptError.capture msg), [], 1⟩ ∧
    (launchLoop gn mr d).attemptsMade = mr := by
  constructor
  · obtain ⟨k, hk⟩ : ∃ k, mr = k + 1 := ⟨mr - 1, by omega⟩
    rw [hk]
    simp only [launchLoop, loopGo, hc]
  · exact loopGo_ground_fail_count gn d mr hg mr 0 none

/-- C8 amended witness: capture failure aborts at once while grounding
failure exhausts all 3 attempts. -/
theorem c8_capture_not_retried_witness :
    launchLoop
        (fun _ => (Except.error (AttemptError.capture "mss failed") :
          Except AttemptError GroundingResult)) 3 1 =
      ⟨Except.error (AttemptError.capture "mss failed"), [], 1⟩ ∧
    (launchLoop
        (fun _ => (Except.error (AttemptError.grounding fallbackError) :
          Except AttemptError GroundingResult)) 3 1).attemptsMade = 3 :=
  c8_capture_not_retried _ _ 3 1 "mss failed" (by omega) rfl
    (fun _ => ⟨fallbackError, rfl⟩)

/-- Folding `min` can only shrink the accumulator. -/
theorem foldl_min_le_init (f : ℚ × ℚ → ℚ) :
    ∀ (ps : List (ℚ × ℚ)) (a : ℚ),
      ps.foldl (fun acc q => min acc (f q)) a ≤ a := by
  intro ps
  induction ps with
  | nil => intro a; exact le_refl a
  | cons p ps ih =>
    intro a
    calc (p :: ps).foldl (fun acc q => min acc (f q)) a
        = ps.foldl (fun acc q => min acc (f q)) (min a (f p)) := rfl
      _ ≤ min a (f p) := ih _
      _ ≤ a := min_le_left _ _

/-- Folding `min` is a lower bound of the folded values. -/
theorem foldl_min_le_mem (f : ℚ × ℚ → ℚ) :
    ∀ (ps : List (ℚ × ℚ)) (a : ℚ), ∀ q ∈ ps,
      ps.foldl (fun acc x => min acc (f x)) a ≤ f q := by
  intro ps
  induction ps with
  | nil => intro a q hq; cases hq
  | cons p ps ih =>
    intro a q hq
    rcases List.mem_cons.mp hq with rfl | hq'
    · calc (q :: ps).foldl (fun acc x => min acc (f x)) a
          = ps.foldl (fun acc x => min acc (f x)) (min a (f q)) := rfl
        _ ≤ min a (f q) := foldl_min_le_init f ps _
        _ ≤ f q := min_le_right _ _
    · exact ih _ q hq'

/-- Folding `max` can only grow the accumulator. -/
theorem init_le_foldl_max (f : ℚ × ℚ → ℚ) :
    ∀ (ps : List (ℚ × ℚ)) (a : ℚ),
      a ≤ ps.foldl (fun acc q => max acc (f q)) a := by
  intro ps
  induction ps with
  | nil => intro a; exact le_refl a
  | cons p ps ih =>
    intro a
    calc a ≤ max a (f p) := le_max_left _ _
      _ ≤ ps.foldl (fun acc q => max acc (f q)) (max a (f p)) := ih _
      _ = (p :: ps).foldl (fun acc q => max acc (f q)) a := rfl

/-- Folding `max` is an upper bound of the folded values. -/
theorem mem_le_foldl_max (f : ℚ × ℚ → ℚ) :
    ∀ (ps : List (ℚ × ℚ)) (a : ℚ), ∀ q ∈ ps,
      f q ≤ ps.foldl (fun acc x => max acc (f x)) a := by
  intro ps
  induction ps with
  | nil => intro a q hq; cases hq
  | cons p ps ih =>
    intro a q hq
    rcases List.mem_cons.mp hq with rfl | hq'
    · calc f q ≤ max a (f q) := le_max_right _ _
        _ ≤ ps.foldl (fun acc x => max acc (f x)) (max a (f q)) :=
          init_le_foldl_max f ps _
        _ = (q :: ps).foldl (fun acc x => max acc (f x)) a := rfl
    · exact ih _ q hq'

/-- `polyMin` is below every polygon coordinate on its axis. -/
theorem polyMin_le (f : ℚ × ℚ → ℚ) (bbox : List (ℚ × ℚ)) :
    ∀ p ∈ bbox, polyMin f bbox ≤ f p := by
  cases bbox with
  | nil => intro p hp; cases hp
  | cons q qs =>
    intro p hp
    rcases List.mem_cons.mp hp with rfl | hp'
    · exact foldl_min_le_init f qs (f p)
    · exact foldl_min_le_mem f qs (f q) p hp'

/-- `polyMax` is above every polygon coordinate on its axis. -/
theorem le_polyMax (f : ℚ × ℚ → ℚ) (bbox : List (ℚ × ℚ)) :
    ∀ p ∈ bbox, f p ≤ polyMax f bbox := by
  cases bbox with
  | nil => intro p hp; cases hp
  | cons q qs =>
    intro p hp
    rcases List.mem_cons.mp hp with rfl | hp'
    · exact init_le_foldl_max f qs (f p)
    · exact mem_le_foldl_max f qs (f q) p hp'

/-- `polyMin` never exceeds `polyMax` (both are `0` on the degenerate empty
polygon). -/
theorem polyMin_le_polyMax (f : ℚ × ℚ → ℚ) (bbox : List (ℚ × ℚ)) :
    polyMin f bbox ≤ polyMax f bbox := by
  cases bbox with
  | nil => exact le_refl 0
  | cons q qs =>
    calc polyMin f (q :: qs) ≤ f q :=
        polyMin_le f (q :: qs) q (List.mem_cons_self q qs)
      _ ≤ polyMax f (q :: qs) := le_polyMax f (q :: qs) q (List.mem_cons_self q qs)

/-- Truncation toward zero is monotone. -/
theorem pyInt_mono {a b : ℚ} (h : a ≤ b) : pyInt a ≤ pyInt b := by
  unfold pyInt
  by_cases ha : 0 ≤ a
  · rw [if_pos ha, if_pos (le_trans ha h)]
    exact Int.floor_le_floor h
  · by_cases hb : 0 ≤ b
    · rw [if_neg ha, if_pos hb]
      calc ⌈a⌉ ≤ 0 := Int.ceil_le.mpr (by exact_mod_cast le_of_lt (lt_of_not_ge ha))
        _ ≤ ⌊b⌋ := Int.floor_nonneg.mpr hb
    · rw [if_neg ha, if_neg hb]
      exact Int.ceil_le_ceil h

/-- C9: detection normalizes each reported polygon to an axis-aligned box
via min/max of its coordinates on each axis, and every produced fragment
has `width ≥ 0`, `height ≥ 0` and, given the engine's confidence contract,
`confidence ∈ [0, 1]`. -/
theorem c9_normalization (results : List RawDetection)
    (hconf : ∀ raw ∈ results, 0 ≤ raw.conf ∧ raw.conf ≤ 1) :
    (∀ raw ∈ results, ∀ p ∈ raw.bbox,
        polyMin Prod.fst raw.bbox ≤ p.1 ∧ p.1 ≤ polyMax Prod.fst raw.bbox ∧
        polyMin Prod.snd raw.bbox ≤ p.2 ∧ p.2 ≤ polyMax Prod.snd raw.bbox) ∧
    (∀ raw ∈ results, mkLocation raw =
        ⟨raw.text, pyInt (polyMin Prod.fst raw.bbox), pyInt (polyMin Prod.snd raw.bbox),
          pyInt (polyMax Prod.fst raw.bbox) - pyInt (polyMin Prod.fst raw.bbox),
          pyInt (polyMax Prod.snd raw.bbox) - pyInt (polyMin Prod.snd raw.bbox),
          raw.conf⟩) ∧
    (∀ loc ∈ find_all_text results,
        0 ≤ loc.width ∧ 0 ≤ loc.height ∧ 0 ≤ loc.confidence ∧ loc.confidence ≤ 1) := by
  refine ⟨?_, fun raw _ => rfl, ?_⟩
  · intro raw _ p hp
    exact ⟨polyMin_le Prod.fst raw.bbox p hp, le_polyMax Prod.fst raw.bbox p hp,
      polyMin_le Prod.snd raw.bbox p hp, le_polyMax Prod.snd raw.bbox p hp⟩
  · intro loc hloc
    obtain ⟨raw, hraw, rfl⟩ := List.mem_map.mp hloc
    refine ⟨?_, ?_, (hconf raw hraw).1, (hconf raw hraw).2⟩
    · exact Int.sub_nonneg.mpr (pyInt_mono (polyMin_le_polyMax Prod.fst raw.bbox))
    · exact Int.sub_nonneg.mpr (pyInt_mono (polyMin_le_polyMax Prod.snd raw.bbox))

/-- C9 witness: one raw detection with a 2-by-1 polygon and confidence
9/10. -/
theorem c9_normalization_witness :
    0 ≤ (mkLocation ⟨[(0, 0), (2, 0), (2, 1), (0, 1)], "Notepad", 9 / 10⟩).width ∧
    0 ≤ (mkLocation ⟨[(0, 0), (2, 0), (2, 1), (0, 1)], "Notepad", 9 / 10⟩).height ∧
    0 ≤ (mkLocation ⟨[(0, 0), (2, 0), (2, 1), (0, 1)], "Notepad", 9 / 10⟩).confidence ∧
    (mkLocation ⟨[(0, 0), (2, 0), (2, 1), (0, 1)], "Notepad", 9 / 10⟩).confidence ≤ 1 :=
  (c9_normalization [⟨[(0, 0), (2, 0), (2, 1), (0, 1)], "Notepad", 9 / 10⟩]
      (by intro raw hraw
          rw [List.mem_singleton.mp hraw]
          constructor <;> norm_num)).2.2
    (mkLocation ⟨[(0, 0), (2, 0), (2, 1), (0, 1)], "Notepad", 9 / 10⟩)
    (List.mem_map_of_mem mkLocation (List.mem_singleton_self _))

end DesktopAutomation
